import Mathlib

/-!
Verification of the bitmap-js library (src/src/bitmap.ts, version 1.0.13).

The development shallowly embeds the parts of the library that the
specification claims talk about: the `Bitmap` class (8bpp uncompressed
bitmap codec: constructor, `Bitmap.from`, `setPixel`, `getPixel`,
`withinImage`, `withinPalette`, `setColor`, `setPalette`), the `Surface`
drawing layer (`pixel`, `hline`, `blitsub`, `blit`) and the `MaskShader`
preset.

Modelling conventions:
- `Uint8Array` buffers become `Array Nat`; every write applies `% 256`,
  mirroring the ToUint8 coercion of typed arrays.
- JavaScript numbers used as coordinates or palette indices become `Int`
  (the claims quantify over integers; `Math.floor`/`Math.ceil` on an
  integral value are the identity and are elided, with a comment at the
  corresponding definition).
- `DataView.getUint16/getUint32/setUint32` become explicit byte reads and
  writes (`getU16BE`, `getU16LE`, `getU32LE`, `setU32LE`); `setUint32`
  truncates its argument modulo 2 to the 32.
- `throw` becomes `Except BitmapError`; the `RangeError` that
  `Uint8Array.prototype.set` raises when the source fragment does not fit
  the destination is the `fragmentOverflow` case.
- Pixel shader objects become functions `Pixel → Pixel → Pixel`; the
  source passes defensive copies to each shader, which is invisible for
  pure functions.
-/

/-- One byte read with default 0, used for all buffer reads. -/
def getB (a : Array Nat) (i : Nat) : Nat := a.getD i 0

/-- DataView.getUint16 with big-endian flag (used for the magic number). -/
def getU16BE (a : Array Nat) (off : Nat) : Nat :=
  getB a off * 256 + getB a (off + 1)

/-- DataView.getUint16 with little-endian flag. -/
def getU16LE (a : Array Nat) (off : Nat) : Nat :=
  getB a off + getB a (off + 1) * 256

/-- DataView.getUint32 with little-endian flag. -/
def getU32LE (a : Array Nat) (off : Nat) : Nat :=
  getB a off + getB a (off + 1) * 256 + getB a (off + 2) * 65536 +
    getB a (off + 3) * 16777216

/-- DataView.setUint32 with little-endian flag: the value is truncated to
32 bits and stored as four bytes. -/
def setU32LE (a : Array Nat) (off v0 : Nat) : Array Nat :=
  let v := v0 % 4294967296
  ((((a.setD off (v % 256)).setD (off + 1) (v / 256 % 256)).setD
      (off + 2) (v / 65536 % 256)).setD (off + 3) (v / 16777216 % 256))

/-- Uint8Array.prototype.set: overwrite `dst` with `src` starting at
offset `off`, copying the source bytes in order (the caller guards the
RangeError case). -/
def arrSet (dst src : Array Nat) (off : Nat) : Array Nat :=
  (List.range src.size).foldl (fun d i => d.setD (off + i) (getB src i)) dst

/-- Uint8Array.prototype.slice over `[s, e)`: collect the bytes of the
range in order. -/
def arrSlice (a : Array Nat) (s e : Nat) : Array Nat :=
  (List.range (e - s)).foldl (fun acc i => acc.push (getB a (s + i))) #[]

/-- The Color class: an RGBA tuple of JavaScript numbers (kept as `Nat`;
each channel is truncated modulo 256 at the moment it is stored into the
byte buffer, as a Uint8Array store does). -/
structure Color where
  r : Nat
  g : Nat
  b : Nat
  a : Nat
deriving DecidableEq

/-- The Pixel class used by pixel shaders: a position and a palette
index, the index `-1` denoting a cancelled pixel. -/
structure Pixel where
  x : Int
  y : Int
  color : Int
deriving DecidableEq

/-- The Bitmap class: width, height, pixel count, palette size (always
256) and the single backing byte buffer of size 1078 + width*height. -/
structure Bitmap where
  width : Nat
  height : Nat
  size : Nat
  paletteSize : Nat
  data : Array Nat
deriving DecidableEq

/-- The 54-byte default header written by the Bitmap constructor
(magic, placeholder file size, data offset 1078, info-header size 40,
placeholder width and height, 1 plane, 8 bpp, no compression, fixed
resolution and color-count fields). -/
def defaultHeader : Array Nat :=
  #[0x42, 0x4d,
    0x00, 0x00, 0x00, 0x00,
    0x00, 0x00, 0x00, 0x00,
    0x36, 0x04, 0x00, 0x00,
    0x28, 0x00, 0x00, 0x00,
    0x00, 0x00, 0x00, 0x00,
    0x00, 0x00, 0x00, 0x00,
    0x01, 0x00,
    0x08, 0x00,
    0x00, 0x00, 0x00, 0x00,
    0x00, 0x00, 0x00, 0x00,
    0x12, 0x0b, 0x00, 0x00,
    0x12, 0x0b, 0x00, 0x00,
    0x00, 0x01, 0x00, 0x00,
    0x00, 0x01, 0x00, 0x00]

/-- Bitmap.withinPalette: index inside `[0, paletteSize)`. -/
def Bitmap.withinPalette (bm : Bitmap) (index : Int) : Bool :=
  decide (index ≥ 0) && decide (index < (bm.paletteSize : Int))

/-- Bitmap.withinImage: position inside the drawing area. -/
def Bitmap.withinImage (bm : Bitmap) (x y : Int) : Bool :=
  decide (x ≥ 0) && decide (x < (bm.width : Int)) &&
    decide (y ≥ 0) && decide (y < (bm.height : Int))

/-- Bitmap.setColor: no-op returning false outside the palette, else
write the four palette bytes in (B,G,R,A) disk order at
`PALETTE_START + index*4`. -/
def Bitmap.setColor (bm : Bitmap) (index : Int) (color : Color) :
    Bitmap × Bool :=
  if !(bm.withinPalette index) then (bm, false)
  else
    let offset : Nat := 54 + index.toNat * 4
    let d := bm.data.setD offset (color.b % 256)
    let d := d.setD (offset + 1) (color.g % 256)
    let d := d.setD (offset + 2) (color.r % 256)
    let d := d.setD (offset + 3) (color.a % 256)
    ({ bm with data := d }, true)

/-- The loop body of Bitmap.setPalette: apply `setColor` at successive
indices, remembering whether any write failed, and break once the index
reaches the palette size (checked after the body, as in the source). -/
def setPaletteLoop : Bitmap → List Color → Nat → Bool → Bitmap × Bool
  | bm, [], _, result => (bm, result)
  | bm, c :: rest, index, result =>
    let step := bm.setColor (index : Int) c
    let result2 := if step.2 then result else false
    if index ≥ bm.paletteSize then (step.1, result2)
    else setPaletteLoop step.1 rest (index + 1) result2

/-- Bitmap.setPalette. -/
def Bitmap.setPalette (bm : Bitmap) (colors : List Color) : Bitmap × Bool :=
  setPaletteLoop bm colors 0 true

/-- The byte buffer the Bitmap constructor builds before the palette is
applied: zero-filled `1078 + width*height` bytes, the default header,
then the file size, width and height fields. -/
def Bitmap.makeData (width height : Nat) : Array Nat :=
  let size := width * height
  let d := Array.mkArray (1078 + size) 0
  let d := arrSet d defaultHeader 0
  let d := setU32LE d 2 (1078 + size)
  let d := setU32LE d 18 width
  let d := setU32LE d 22 height
  d

/-- The Bitmap constructor on valid dimensions (the TypeScript
constructor throws for `width <= 0 || height <= 0`, which the `Nat`
arguments make impossible for the callers modelled here except
`width = 0` or `height = 0`, and every use below supplies positive
dimensions): allocate the buffer, write the header fields, then apply
the palette. -/
def Bitmap.make (width height : Nat) (colors : List Color) : Bitmap :=
  let b : Bitmap :=
    { width := width, height := height, size := width * height,
      paletteSize := 256, data := Bitmap.makeData width height }
  (b.setPalette colors).1

/-- The error cases of Bitmap.from: the six explicit `throw new Error`
validations plus the RangeError that `Uint8Array.prototype.set` raises
when the palette-and-pixel fragment is longer than the room left in the
freshly allocated buffer. -/
inductive BitmapError where
  | truncated
  | badSignature
  | badDataOffset
  | invalidDimensions
  | unsupportedDepth
  | unsupportedCompression
  | fragmentOverflow
deriving DecidableEq

/-- Bitmap.from: validate the header, allocate a fresh bitmap for the
parsed dimensions, and copy everything from offset 54 onward into it.
The width and height fields are unsigned 32-bit reads, so the source
comparison `width <= 0` is `width = 0` here. -/
def Bitmap.fromBytes (file : Array Nat) : Except BitmapError Bitmap :=
  if file.size < 1078 then .error .truncated
  else
    let signature := getU16BE file 0
    let dataOffset := getU32LE file 10
    let width := getU32LE file 18
    let height := getU32LE file 22
    let bitsPerPixel := getU16LE file 28
    let compression := getU16LE file 30
    if signature ≠ 16973 then .error .badSignature
    else if dataOffset ≠ 1078 then .error .badDataOffset
    else if width = 0 ∨ height = 0 then .error .invalidDimensions
    else if bitsPerPixel ≠ 8 then .error .unsupportedDepth
    else if compression ≠ 0 then .error .unsupportedCompression
    else
      let result := Bitmap.make width height []
      let fragment := arrSlice file 54 file.size
      if result.data.size < 54 + fragment.size then .error .fragmentOverflow
      else .ok { result with data := arrSet result.data fragment 54 }

/-- `isErr e` holds exactly when `Bitmap.from` threw. -/
def isErr : Except BitmapError Bitmap → Bool
  | .error _ => true
  | .ok _ => false

/-- The byte offset of the stored pixel for in-bounds `(x, y)`: header
size plus the vertically inverted row times the width plus the column. -/
def pixOffset (bm : Bitmap) (x y : Int) : Nat :=
  1078 + bm.width * (bm.height - 1 - y.toNat) + x.toNat

/-- Bitmap.setPixel: no-op returning false when the position is outside
the image or the index outside the palette, else store the index at the
inverted row offset.  The source converts `x` and `y` with
`Math.floor`/`Math.ceil`, the identity on the integers modelled here. -/
def Bitmap.setPixel (bm : Bitmap) (x y : Int) (primaryColor : Int) :
    Bitmap × Bool :=
  if !(bm.withinImage x y && bm.withinPalette primaryColor) then (bm, false)
  else
    let iy : Int := ((bm.height : Int) - 1) - y
    let offset : Int := 1078 + (bm.width : Int) * iy + x
    ({ bm with data := bm.data.setD offset.toNat (primaryColor.toNat % 256) },
      true)

/-- Bitmap.getPixel: `-1` outside the image, else the byte at the
inverted row offset. -/
def Bitmap.getPixel (bm : Bitmap) (x y : Int) : Int :=
  if !(bm.withinImage x y) then -1
  else
    let iy : Int := ((bm.height : Int) - 1) - y
    let offset : Int := 1078 + (bm.width : Int) * iy + x
    (getB bm.data offset.toNat : Int)

/-- Well-formedness of a Bitmap reachable through the public API: the
dimensions are positive unsigned 32-bit values, the cached size and
palette size match, the buffer has exactly `1078 + size` byte-sized
entries, and the first 54 bytes are the canonical header the constructor
writes for these dimensions. -/
def WF (b : Bitmap) : Prop :=
  1 ≤ b.width ∧ b.width < 4294967296 ∧
  1 ≤ b.height ∧ b.height < 4294967296 ∧
  b.size = b.width * b.height ∧
  b.paletteSize = 256 ∧
  b.data.size = 1078 + b.size ∧
  (∀ i, getB b.data i < 256) ∧
  (∀ i, i < 54 → getB b.data i = getB (Bitmap.make b.width b.height []).data i)

/-- A pixel shader: the `pixelShader(previous, next)` method of the
PixelShader interface, as a pure function (the source hands each shader
defensive copies of both pixels, which a pure function cannot tell
apart from the originals). -/
def PixelShaderFn : Type := Pixel → Pixel → Pixel

/-- The state of the shader loop in Surface.pixel after the whole shader
list has run: the fold keeps the pair `(previous, next)` and each
iteration replaces it by `(next, shader previous next)`, exactly as the
source loop assigns `previous = next; next = result`. -/
def shaderFold (shaders : List PixelShaderFn) (p n : Pixel) : Pixel × Pixel :=
  shaders.foldl (fun pn shader => (pn.2, shader pn.1 pn.2)) (p, n)

/-- Surface.pixel over a Bitmap target: build the previous pixel from
the buffer and the next pixel from the caller, run the shader loop, and
commit the final pixel through Bitmap.setPixel. -/
def Surface.pixel (bm : Bitmap) (x y : Int) (primaryColor : Int)
    (shaders : List PixelShaderFn) : Bitmap :=
  let previous : Pixel := ⟨x, y, bm.getPixel x y⟩
  let next : Pixel := ⟨x, y, primaryColor⟩
  let fin := (shaderFold shaders previous next).2
  (bm.setPixel fin.x fin.y fin.color).1

/-- The loop of Surface.hline: `n` iterations of `pixel (x+index) y`,
index running from 0. -/
def hlineLoop (bm : Bitmap) (x y : Int) (primaryColor : Int)
    (shaders : List PixelShaderFn) : Nat → Bitmap
  | 0 => bm
  | n + 1 => Surface.pixel (hlineLoop bm x y primaryColor shaders n)
      (x + n) y primaryColor shaders

/-- Surface.hline: the source loop `for(index = 0; index < size; ...)`
runs `size.toNat` times (zero times when `size` is negative or zero). -/
def Surface.hline (bm : Bitmap) (x y size primaryColor : Int)
    (shaders : List PixelShaderFn) : Bitmap :=
  hlineLoop bm x y primaryColor shaders size.toNat

/-- The source Drawable interface, restricted to what Surface.blitsub
uses of its source argument: dimensions and getPixel. -/
structure SrcImage where
  width : Int
  height : Int
  getPixel : Int → Int → Int

/-- Surface.blitsub: no-op when a scale is zero; otherwise the sign of
each scale selects mirroring, `Math.floor` (mirrored) or `Math.ceil`
(not) of the scale is the identity on the integers modelled here, and
the absolute values give the pixel replication factors.  The four
nested loops follow the source ordering `pyi, dy, pxi, dx`; `rotation`
is accepted and ignored, as in the source. -/
def Surface.blitsub (bm : Bitmap) (srcGet : Int → Int → Int)
    (x y cx cy width height scaleX scaleY _rotation : Int)
    (shaders : List PixelShaderFn) : Bitmap :=
  if scaleX = 0 ∨ scaleY = 0 then bm
  else
    let mirrored := decide (scaleX < 0)
    let flipped := decide (scaleY < 0)
    let pw := scaleX.natAbs
    let ph := scaleY.natAbs
    (List.range ph).foldl (fun bm1 pyi =>
      (List.range height.toNat).foldl (fun bm2 dy =>
        (List.range pw).foldl (fun bm3 pxi =>
          (List.range width.toNat).foldl (fun bm4 dx =>
            let pixel := srcGet ((dx : Int) + cx) ((dy : Int) + cy)
            let px : Int := if mirrored then (width - 1) - (x + dx)
              else x + dx
            let py : Int := if flipped then (height - 1) - (y + dy)
              else y + dy
            Surface.pixel bm4 (px + ((pw : Int) - 1) * dx + pxi)
              (py + ((ph : Int) - 1) * dy + pyi) pixel shaders)
            bm3)
          bm2)
        bm1)
      bm

/-- Surface.blit: blitsub over the full extent of the source. -/
def Surface.blit (bm : Bitmap) (src : SrcImage)
    (x y scaleX scaleY rotation : Int) (shaders : List PixelShaderFn) :
    Bitmap :=
  Surface.blitsub bm src.getPixel x y 0 0 src.width src.height
    scaleX scaleY rotation shaders

/-- The MaskShader preset with transparency index `value`: rewrite the
candidate color to `-1` when it equals the mask value, else pass the
candidate through. -/
def MaskShader (value : Int) : PixelShaderFn :=
  fun _previous next =>
    if next.color = value then { next with color := -1 } else next

/-! ### Pointwise characterization of the buffer operations -/

lemma getB_eq_getElem (a : Array Nat) (i : Nat) (h : i < a.size) :
    getB a i = a[i] := by
  simp [getB, Array.getD, h]

lemma getB_of_ge (a : Array Nat) (i : Nat) (h : a.size ≤ i) :
    getB a i = 0 := by
  simp [getB, Array.getD, Nat.not_lt.mpr h]

lemma size_setD (a : Array Nat) (i v : Nat) : (a.setD i v).size = a.size :=
  Array.size_setD a i v

lemma getB_setD (a : Array Nat) (i v j : Nat) :
    getB (a.setD i v) j = if i = j ∧ i < a.size then v else getB a j := by
  unfold Array.setD
  by_cases hi : i < a.size
  · simp only [dif_pos hi]
    by_cases hj : j < a.size
    · rw [getB_eq_getElem _ _ (by simpa using hj),
        Array.getElem_set a ⟨i, hi⟩ v j (by simpa using hj),
        getB_eq_getElem a j hj]
      by_cases hij : i = j
      · subst hij; simp [hi]
      · simp [hij]
    · rw [getB_of_ge _ _ (by simpa using Nat.not_lt.mp hj),
        getB_of_ge _ _ (Nat.not_lt.mp hj)]
      have : ¬(i = j ∧ i < a.size) := by
        rintro ⟨rfl, _⟩; exact hj hi
      simp [this]
  · simp only [dif_neg hi]
    have : ¬(i = j ∧ i < a.size) := by rintro ⟨rfl, h2⟩; exact hi h2
    simp [this]

lemma rangeSetSize (dst src : Array Nat) (off n : Nat) :
    ((List.range n).foldl
      (fun d i => d.setD (off + i) (getB src i)) dst).size = dst.size := by
  induction n with
  | zero => rfl
  | succ k ih =>
    rw [List.range_succ, List.foldl_append]
    simp only [List.foldl_cons, List.foldl_nil]
    rw [size_setD, ih]

lemma rangeSetGetB (dst src : Array Nat) (off n j : Nat) (hj : j < dst.size) :
    getB ((List.range n).foldl
        (fun d i => d.setD (off + i) (getB src i)) dst) j =
      if off ≤ j ∧ j < off + n then getB src (j - off) else getB dst j := by
  induction n with
  | zero =>
    simp only [List.range_zero, List.foldl_nil]
    split_ifs with hc
    · exact absurd hc (by omega)
    · rfl
  | succ k ih =>
    rw [List.range_succ, List.foldl_append]
    simp only [List.foldl_cons, List.foldl_nil]
    rw [getB_setD, rangeSetSize dst src off k, ih]
    split_ifs <;> first | rfl | omega | (congr 1; omega)

lemma size_arrSet (dst src : Array Nat) (off : Nat) :
    (arrSet dst src off).size = dst.size := by
  unfold arrSet
  exact rangeSetSize dst src off src.size

lemma getB_arrSet (dst src : Array Nat) (off j : Nat) (hj : j < dst.size) :
    getB (arrSet dst src off) j =
      if off ≤ j ∧ j < off + src.size then getB src (j - off)
      else getB dst j := by
  unfold arrSet
  exact rangeSetGetB dst src off src.size j hj

lemma getB_arrSet_of_ge (dst src : Array Nat) (off j : Nat)
    (hj : off + src.size ≤ j) (hj2 : j < dst.size) :
    getB (arrSet dst src off) j = getB dst j := by
  rw [getB_arrSet dst src off j hj2, if_neg]
  rintro ⟨_, h2⟩; omega

lemma getB_push (arr : Array Nat) (v : Nat) (j : Nat) :
    getB (arr.push v) j =
      if j < arr.size then getB arr j
      else if j = arr.size then v else 0 := by
  by_cases h1 : j < arr.size
  · rw [getB_eq_getElem _ _ (by rw [Array.size_push]; omega),
      Array.getElem_push, dif_pos h1, if_pos h1, getB_eq_getElem _ _ h1]
  · by_cases h2 : j = arr.size
    · subst h2
      rw [getB_eq_getElem _ _ (by rw [Array.size_push]; omega),
        Array.getElem_push, dif_neg (by omega), if_neg (by omega), if_pos rfl]
    · rw [getB_of_ge _ _ (by rw [Array.size_push]; omega), if_neg h1,
        if_neg h2]

lemma rangeSliceSize (a : Array Nat) (s n : Nat) :
    ((List.range n).foldl
      (fun acc i => acc.push (getB a (s + i))) #[]).size = n := by
  induction n with
  | zero => rfl
  | succ k ih =>
    rw [List.range_succ, List.foldl_append]
    simp only [List.foldl_cons, List.foldl_nil]
    rw [Array.size_push, ih]

lemma rangeSliceGetB (a : Array Nat) (s n j : Nat) (hj : j < n) :
    getB ((List.range n).foldl
        (fun acc i => acc.push (getB a (s + i))) #[]) j = getB a (s + j) := by
  induction n with
  | zero => omega
  | succ k ih =>
    rw [List.range_succ, List.foldl_append]
    simp only [List.foldl_cons, List.foldl_nil]
    rw [getB_push, rangeSliceSize]
    split_ifs with h1 h2
    · exact ih h1
    · rw [h2]
    · omega

lemma size_arrSlice (a : Array Nat) (s e : Nat) :
    (arrSlice a s e).size = e - s := by
  unfold arrSlice
  exact rangeSliceSize a s (e - s)

lemma getB_arrSlice (a : Array Nat) (s e j : Nat) (hj : j < e - s) :
    getB (arrSlice a s e) j = getB a (s + j) := by
  unfold arrSlice
  exact rangeSliceGetB a s (e - s) j hj

lemma size_mkArrayN (n v : Nat) : (Array.mkArray n v).size = n :=
  Array.size_mkArray n v

lemma getB_mkArray (n v j : Nat) (hj : j < n) :
    getB (Array.mkArray n v) j = v := by
  rw [getB_eq_getElem _ j (by rw [size_mkArrayN]; exact hj)]
  exact Array.getElem_mkArray n v _

lemma size_setU32LE (a : Array Nat) (off v : Nat) :
    (setU32LE a off v).size = a.size := by
  unfold setU32LE
  simp [size_setD]

lemma getB_setU32LE_ne (a : Array Nat) (off v j : Nat)
    (h : j < off ∨ off + 3 < j) :
    getB (setU32LE a off v) j = getB a j := by
  unfold setU32LE
  simp only [getB_setD, size_setD]
  split_ifs <;> simp only [true_and, not_and, not_lt] at * <;> omega

lemma getB_setU32LE_b0 (a : Array Nat) (off v : Nat)
    (h : off + 3 < a.size) :
    getB (setU32LE a off v) off = v % 4294967296 % 256 := by
  unfold setU32LE
  simp only [getB_setD, size_setD]
  split_ifs <;> simp only [true_and, not_and, not_lt] at * <;> omega

lemma getB_setU32LE_b1 (a : Array Nat) (off v : Nat)
    (h : off + 3 < a.size) :
    getB (setU32LE a off v) (off + 1) = v % 4294967296 / 256 % 256 := by
  unfold setU32LE
  simp only [getB_setD, size_setD]
  split_ifs <;> simp only [true_and, not_and, not_lt] at * <;> omega

lemma getB_setU32LE_b2 (a : Array Nat) (off v : Nat)
    (h : off + 3 < a.size) :
    getB (setU32LE a off v) (off + 2) = v % 4294967296 / 65536 % 256 := by
  unfold setU32LE
  simp only [getB_setD, size_setD]
  split_ifs <;> simp only [true_and, not_and, not_lt] at * <;> omega

lemma getB_setU32LE_b3 (a : Array Nat) (off v : Nat)
    (h : off + 3 < a.size) :
    getB (setU32LE a off v) (off + 3) =
      v % 4294967296 / 16777216 % 256 := by
  unfold setU32LE
  simp only [getB_setD, size_setD]
  split_ifs <;> simp only [true_and, not_and, not_lt] at * <;> omega

lemma getU32LE_setU32LE (a : Array Nat) (off v : Nat)
    (h : off + 3 < a.size) :
    getU32LE (setU32LE a off v) off = v % 4294967296 := by
  unfold getU32LE
  rw [getB_setU32LE_b0 a off v h, getB_setU32LE_b1 a off v h,
    getB_setU32LE_b2 a off v h, getB_setU32LE_b3 a off v h]
  omega

lemma getU32LE_setU32LE_ne (a : Array Nat) (off2 v off : Nat)
    (h : off + 3 < off2 ∨ off2 + 3 < off) :
    getU32LE (setU32LE a off2 v) off = getU32LE a off := by
  unfold getU32LE
  rw [getB_setU32LE_ne a off2 v off (by omega),
    getB_setU32LE_ne a off2 v (off+1) (by omega),
    getB_setU32LE_ne a off2 v (off+2) (by omega),
    getB_setU32LE_ne a off2 v (off+3) (by omega)]

/-! ### The header bytes written by the constructor -/

lemma size_defaultHeader : defaultHeader.size = 54 := rfl

lemma getB_defaultHeader_lt (j : Nat) : getB defaultHeader j < 256 := by
  by_cases hj : j < 54
  · revert hj
    have : ∀ j < 54, getB defaultHeader j < 256 := by decide
    exact this j
  · rw [getB_of_ge _ _ (by rw [size_defaultHeader]; omega)]
    omega

lemma getB_mkArray_zero (n j : Nat) : getB (Array.mkArray n 0) j = 0 := by
  by_cases hj : j < n
  · exact getB_mkArray n 0 j hj
  · exact getB_of_ge _ _ (by rw [size_mkArrayN]; omega)

lemma size_makeData (w h : Nat) :
    (Bitmap.makeData w h).size = 1078 + w * h := by
  unfold Bitmap.makeData
  rw [size_setU32LE, size_setU32LE, size_setU32LE, size_arrSet,
    size_mkArrayN]

lemma getB_makeData_low (w h j : Nat) (hj : j < 54)
    (h1 : j < 2 ∨ 5 < j) (h2 : j < 18 ∨ 21 < j) (h3 : j < 22 ∨ 25 < j) :
    getB (Bitmap.makeData w h) j = getB defaultHeader j := by
  unfold Bitmap.makeData
  rw [getB_setU32LE_ne _ _ _ _ h3, getB_setU32LE_ne _ _ _ _ h2,
    getB_setU32LE_ne _ _ _ _ h1,
    getB_arrSet _ _ _ _ (by rw [size_mkArrayN]; omega), if_pos]
  · simp
  · refine ⟨by omega, ?_⟩
    rw [size_defaultHeader]
    omega

lemma makeData_sig (w h : Nat) :
    getU16BE (Bitmap.makeData w h) 0 = 16973 := by
  unfold getU16BE
  norm_num
  rw [getB_makeData_low w h 0 (by omega) (by omega) (by omega) (by omega),
    getB_makeData_low w h 1 (by omega) (by omega) (by omega) (by omega)]
  decide

lemma makeData_dataOffset (w h : Nat) :
    getU32LE (Bitmap.makeData w h) 10 = 1078 := by
  unfold getU32LE
  norm_num
  rw [getB_makeData_low w h 10 (by omega) (by omega) (by omega) (by omega),
    getB_makeData_low w h 11 (by omega) (by omega) (by omega) (by omega),
    getB_makeData_low w h 12 (by omega) (by omega) (by omega) (by omega),
    getB_makeData_low w h 13 (by omega) (by omega) (by omega) (by omega)]
  decide

lemma makeData_bpp (w h : Nat) :
    getU16LE (Bitmap.makeData w h) 28 = 8 := by
  unfold getU16LE
  norm_num
  rw [getB_makeData_low w h 28 (by omega) (by omega) (by omega) (by omega),
    getB_makeData_low w h 29 (by omega) (by omega) (by omega) (by omega)]
  decide

lemma makeData_comp (w h : Nat) :
    getU16LE (Bitmap.makeData w h) 30 = 0 := by
  unfold getU16LE
  norm_num
  rw [getB_makeData_low w h 30 (by omega) (by omega) (by omega) (by omega),
    getB_makeData_low w h 31 (by omega) (by omega) (by omega) (by omega)]
  decide

lemma makeData_width (w h : Nat) :
    getU32LE (Bitmap.makeData w h) 18 = w % 4294967296 := by
  unfold Bitmap.makeData
  rw [getU32LE_setU32LE_ne _ _ _ _ (by omega)]
  rw [getU32LE_setU32LE]
  rw [size_setU32LE, size_arrSet, size_mkArrayN]
  omega

lemma makeData_height (w h : Nat) :
    getU32LE (Bitmap.makeData w h) 22 = h % 4294967296 := by
  unfold Bitmap.makeData
  rw [getU32LE_setU32LE]
  rw [size_setU32LE, size_setU32LE, size_arrSet, size_mkArrayN]
  omega

lemma getB_makeData_lt (w h j : Nat) : getB (Bitmap.makeData w h) j < 256 := by
  unfold Bitmap.makeData
  have base : ∀ i, getB (arrSet (Array.mkArray (1078 + w * h) 0)
      defaultHeader 0) i < 256 := by
    intro i
    by_cases hi : i < (Array.mkArray (1078 + w * h) 0).size
    · rw [getB_arrSet _ _ _ _ hi]
      split_ifs
      · exact getB_defaultHeader_lt _
      · rw [getB_mkArray_zero]; omega
    · rw [getB_of_ge _ _ (by rw [size_arrSet]; omega)]
      omega
  have step : ∀ (a : Array Nat) (off v : Nat), (∀ i, getB a i < 256) →
      ∀ j, getB (setU32LE a off v) j < 256 := by
    intro a off v ha j
    unfold setU32LE
    simp only [getB_setD, size_setD]
    split_ifs <;> first | omega | exact ha j
  exact step _ 22 h (step _ 18 w (step _ 2 (1078 + w * h) base)) j

/-! ### Invariance of the palette writes -/

lemma setColor_spec (bm : Bitmap) (index : Int) (c : Color) :
    (bm.setColor index c).1.width = bm.width ∧
    (bm.setColor index c).1.height = bm.height ∧
    (bm.setColor index c).1.size = bm.size ∧
    (bm.setColor index c).1.paletteSize = bm.paletteSize ∧
    (bm.setColor index c).1.data.size = bm.data.size ∧
    (∀ j, j < 54 → getB (bm.setColor index c).1.data j = getB bm.data j) ∧
    (bm.paletteSize = 256 →
      ∀ j, 1078 ≤ j → getB (bm.setColor index c).1.data j = getB bm.data j) ∧
    ((∀ i, getB bm.data i < 256) →
      ∀ i, getB (bm.setColor index c).1.data i < 256) := by
  unfold Bitmap.setColor
  by_cases hw : bm.withinPalette index = true
  · have hidx : 0 ≤ index ∧ index < (bm.paletteSize : Int) := by
      have := hw
      unfold Bitmap.withinPalette at this
      simp only [Bool.and_eq_true, decide_eq_true_eq] at this
      exact ⟨this.1, this.2⟩
    have htn : index.toNat < bm.paletteSize := by omega
    simp only [hw, Bool.not_true, Bool.false_eq_true, if_false]
    refine ⟨by trivial, by trivial, by trivial, by trivial, ?_, ?_, ?_, ?_⟩
    · simp [size_setD]
    · intro j hj
      simp only [getB_setD, size_setD]
      split_ifs <;> omega
    · intro hp j hj
      have : index.toNat ≤ 255 := by omega
      simp only [getB_setD, size_setD]
      split_ifs <;> omega
    · intro hall i
      simp only [getB_setD, size_setD]
      split_ifs <;> first | omega | exact hall i
  · simp only [Bool.not_eq_true] at hw
    simp only [hw, Bool.not_false, if_true]
    exact ⟨by trivial, by trivial, by trivial, by trivial, by trivial,
      fun _ _ => by trivial, fun _ _ _ => by trivial, fun h i => h i⟩

lemma setPaletteLoop_spec (colors : List Color) :
    ∀ (bm : Bitmap) (index : Nat) (result : Bool),
    (setPaletteLoop bm colors index result).1.width = bm.width ∧
    (setPaletteLoop bm colors index result).1.height = bm.height ∧
    (setPaletteLoop bm colors index result).1.size = bm.size ∧
    (setPaletteLoop bm colors index result).1.paletteSize = bm.paletteSize ∧
    (setPaletteLoop bm colors index result).1.data.size = bm.data.size ∧
    (∀ j, j < 54 →
      getB (setPaletteLoop bm colors index result).1.data j = getB bm.data j) ∧
    (bm.paletteSize = 256 → ∀ j, 1078 ≤ j →
      getB (setPaletteLoop bm colors index result).1.data j = getB bm.data j) ∧
    ((∀ i, getB bm.data i < 256) →
      ∀ i, getB (setPaletteLoop bm colors index result).1.data i < 256) := by
  induction colors with
  | nil =>
    intro bm index result
    exact ⟨rfl, rfl, rfl, rfl, rfl, fun _ _ => rfl, fun _ _ _ => rfl,
      fun h i => h i⟩
  | cons c rest ih =>
    intro bm index result
    have hc := setColor_spec bm (index : Int) c
    unfold setPaletteLoop
    by_cases hbreak : index ≥ bm.paletteSize
    · simp only [hbreak, if_true]
      exact hc
    · simp only [hbreak, if_false]
      have hr := ih (bm.setColor (index : Int) c).1 (index + 1)
        (if (bm.setColor (index : Int) c).2 then result else false)
      obtain ⟨w1, h1, s1, p1, d1, lo1, hi1, b1⟩ := hc
      obtain ⟨w2, h2, s2, p2, d2, lo2, hi2, b2⟩ := hr
      refine ⟨by rw [w2, w1], by rw [h2, h1], by rw [s2, s1],
        by rw [p2, p1], by rw [d2, d1], ?_, ?_, ?_⟩
      · intro j hj
        rw [lo2 j hj, lo1 j hj]
      · intro hp j hj
        rw [hi2 (by rw [p1]; exact hp) j hj, hi1 hp j hj]
      · intro hall i
        exact b2 (b1 hall) i

/-! ### Field and byte facts about the constructor -/

/-- Unfolding equation for the constructor: the palette loop applied to
the freshly allocated record. -/
lemma make_eq (w h : Nat) (cs : List Color) :
    Bitmap.make w h cs = (setPaletteLoop
      { width := w, height := h, size := w * h, paletteSize := 256,
        data := Bitmap.makeData w h } cs 0 true).1 := rfl

lemma make_width (w h : Nat) (cs : List Color) :
    (Bitmap.make w h cs).width = w :=
  (setPaletteLoop_spec cs
    { width := w, height := h, size := w * h, paletteSize := 256,
      data := Bitmap.makeData w h } 0 true).1

lemma make_height (w h : Nat) (cs : List Color) :
    (Bitmap.make w h cs).height = h :=
  (setPaletteLoop_spec cs
    { width := w, height := h, size := w * h, paletteSize := 256,
      data := Bitmap.makeData w h } 0 true).2.1

lemma make_size (w h : Nat) (cs : List Color) :
    (Bitmap.make w h cs).size = w * h :=
  (setPaletteLoop_spec cs
    { width := w, height := h, size := w * h, paletteSize := 256,
      data := Bitmap.makeData w h } 0 true).2.2.1

lemma make_paletteSize (w h : Nat) (cs : List Color) :
    (Bitmap.make w h cs).paletteSize = 256 :=
  (setPaletteLoop_spec cs
    { width := w, height := h, size := w * h, paletteSize := 256,
      data := Bitmap.makeData w h } 0 true).2.2.2.1

lemma make_data_size (w h : Nat) (cs : List Color) :
    (Bitmap.make w h cs).data.size = 1078 + w * h := by
  rw [make_eq]
  have hs := size_makeData w h
  generalize hd : Bitmap.makeData w h = d at hs ⊢
  rw [(setPaletteLoop_spec cs
    { width := w, height := h, size := w * h, paletteSize := 256,
      data := d } 0 true).2.2.2.2.1]
  exact hs

lemma make_low (w h : Nat) (cs : List Color) (j : Nat) (hj : j < 54) :
    getB (Bitmap.make w h cs).data j = getB (Bitmap.makeData w h) j := by
  rw [make_eq]
  generalize Bitmap.makeData w h = d
  exact (setPaletteLoop_spec cs
    { width := w, height := h, size := w * h, paletteSize := 256,
      data := d } 0 true).2.2.2.2.2.1 j hj

lemma make_high (w h : Nat) (cs : List Color) (j : Nat) (hj : 1078 ≤ j) :
    getB (Bitmap.make w h cs).data j = getB (Bitmap.makeData w h) j := by
  rw [make_eq]
  generalize Bitmap.makeData w h = d
  exact (setPaletteLoop_spec cs
    { width := w, height := h, size := w * h, paletteSize := 256,
      data := d } 0 true).2.2.2.2.2.2.1 rfl j hj

lemma make_bytes_lt (w h : Nat) (cs : List Color) (i : Nat) :
    getB (Bitmap.make w h cs).data i < 256 := by
  rw [make_eq]
  have hlt : ∀ j, getB (Bitmap.makeData w h) j < 256 :=
    fun j => getB_makeData_lt w h j
  generalize hd : Bitmap.makeData w h = d at hlt ⊢
  exact (setPaletteLoop_spec cs
    { width := w, height := h, size := w * h, paletteSize := 256,
      data := d } 0 true).2.2.2.2.2.2.2 hlt i

/-! ### Header fields of a well-formed bitmap -/

lemma getU16BE_congr (a b : Array Nat) (off : Nat)
    (h0 : getB a off = getB b off)
    (h1 : getB a (off + 1) = getB b (off + 1)) :
    getU16BE a off = getU16BE b off := by
  unfold getU16BE
  rw [h0, h1]

lemma getU16LE_congr (a b : Array Nat) (off : Nat)
    (h0 : getB a off = getB b off)
    (h1 : getB a (off + 1) = getB b (off + 1)) :
    getU16LE a off = getU16LE b off := by
  unfold getU16LE
  rw [h0, h1]

lemma getU32LE_congr (a b : Array Nat) (off : Nat)
    (h0 : getB a off = getB b off)
    (h1 : getB a (off + 1) = getB b (off + 1))
    (h2 : getB a (off + 2) = getB b (off + 2))
    (h3 : getB a (off + 3) = getB b (off + 3)) :
    getU32LE a off = getU32LE b off := by
  unfold getU32LE
  rw [h0, h1, h2, h3]

lemma WF_sig (b : Bitmap) (hb : WF b) : getU16BE b.data 0 = 16973 := by
  obtain ⟨_, _, _, _, _, _, _, _, hdr⟩ := hb
  rw [getU16BE_congr b.data (Bitmap.make b.width b.height []).data 0
    (hdr 0 (by omega)) (hdr 1 (by omega)),
    getU16BE_congr (Bitmap.make b.width b.height []).data
      (Bitmap.makeData b.width b.height) 0
      (make_low _ _ [] 0 (by omega)) (make_low _ _ [] 1 (by omega))]
  exact makeData_sig b.width b.height

lemma WF_dataOffset (b : Bitmap) (hb : WF b) : getU32LE b.data 10 = 1078 := by
  obtain ⟨_, _, _, _, _, _, _, _, hdr⟩ := hb
  rw [getU32LE_congr b.data (Bitmap.make b.width b.height []).data 10
    (hdr 10 (by omega)) (hdr 11 (by omega)) (hdr 12 (by omega))
    (hdr 13 (by omega)),
    getU32LE_congr (Bitmap.make b.width b.height []).data
      (Bitmap.makeData b.width b.height) 10
      (make_low _ _ [] 10 (by omega)) (make_low _ _ [] 11 (by omega))
      (make_low _ _ [] 12 (by omega)) (make_low _ _ [] 13 (by omega))]
  exact makeData_dataOffset b.width b.height

lemma WF_widthField (b : Bitmap) (hb : WF b) : getU32LE b.data 18 = b.width := by
  obtain ⟨_, hw2, _, _, _, _, _, _, hdr⟩ := hb
  rw [getU32LE_congr b.data (Bitmap.make b.width b.height []).data 18
    (hdr 18 (by omega)) (hdr 19 (by omega)) (hdr 20 (by omega))
    (hdr 21 (by omega)),
    getU32LE_congr (Bitmap.make b.width b.height []).data
      (Bitmap.makeData b.width b.height) 18
      (make_low _ _ [] 18 (by omega)) (make_low _ _ [] 19 (by omega))
      (make_low _ _ [] 20 (by omega)) (make_low _ _ [] 21 (by omega)),
    makeData_width b.width b.height]
  omega

lemma WF_heightField (b : Bitmap) (hb : WF b) :
    getU32LE b.data 22 = b.height := by
  obtain ⟨_, _, _, hh2, _, _, _, _, hdr⟩ := hb
  rw [getU32LE_congr b.data (Bitmap.make b.width b.height []).data 22
    (hdr 22 (by omega)) (hdr 23 (by omega)) (hdr 24 (by omega))
    (hdr 25 (by omega)),
    getU32LE_congr (Bitmap.make b.width b.height []).data
      (Bitmap.makeData b.width b.height) 22
      (make_low _ _ [] 22 (by omega)) (make_low _ _ [] 23 (by omega))
      (make_low _ _ [] 24 (by omega)) (make_low _ _ [] 25 (by omega)),
    makeData_height b.width b.height]
  omega

lemma WF_bpp (b : Bitmap) (hb : WF b) : getU16LE b.data 28 = 8 := by
  obtain ⟨_, _, _, _, _, _, _, _, hdr⟩ := hb
  rw [getU16LE_congr b.data (Bitmap.make b.width b.height []).data 28
    (hdr 28 (by omega)) (hdr 29 (by omega)),
    getU16LE_congr (Bitmap.make b.width b.height []).data
      (Bitmap.makeData b.width b.height) 28
      (make_low _ _ [] 28 (by omega)) (make_low _ _ [] 29 (by omega))]
  exact makeData_bpp b.width b.height

lemma WF_comp (b : Bitmap) (hb : WF b) : getU16LE b.data 30 = 0 := by
  obtain ⟨_, _, _, _, _, _, _, _, hdr⟩ := hb
  rw [getU16LE_congr b.data (Bitmap.make b.width b.height []).data 30
    (hdr 30 (by omega)) (hdr 31 (by omega)),
    getU16LE_congr (Bitmap.make b.width b.height []).data
      (Bitmap.makeData b.width b.height) 30
      (make_low _ _ [] 30 (by omega)) (make_low _ _ [] 31 (by omega))]
  exact makeData_comp b.width b.height

/-- Every bitmap produced by the constructor with positive 32-bit
dimensions is well formed. -/
lemma make_WF (w h : Nat) (cs : List Color) (h1 : 1 ≤ w)
    (h2 : w < 4294967296) (h3 : 1 ≤ h) (h4 : h < 4294967296) :
    WF (Bitmap.make w h cs) := by
  refine ⟨?_, ?_, ?_, ?_, ?_, ?_, ?_, ?_, ?_⟩
  · rw [make_width]; exact h1
  · rw [make_width]; exact h2
  · rw [make_height]; exact h3
  · rw [make_height]; exact h4
  · rw [make_size, make_width, make_height]
  · rw [make_paletteSize]
  · rw [make_data_size, make_size]
  · exact fun i => make_bytes_lt w h cs i
  · intro i hi
    rw [make_low w h cs i hi, make_width, make_height,
      make_low w h [] i hi]

/-! ### The decode and encode round trip -/

lemma Bitmap.eq_of_fields (b c : Bitmap) (h1 : b.width = c.width)
    (h2 : b.height = c.height) (h3 : b.size = c.size)
    (h4 : b.paletteSize = c.paletteSize) (h5 : b.data = c.data) : b = c := by
  cases b
  cases c
  simp_all

/-- Decoding the backing buffer of any well-formed bitmap succeeds and
returns that very bitmap. -/
lemma fromBytes_roundtrip (b : Bitmap) (hb : WF b) :
    Bitmap.fromBytes b.data = Except.ok b := by
  have hw1 := hb.1
  have hh1 := hb.2.2.1
  have hsz := hb.2.2.2.2.1
  have hps := hb.2.2.2.2.2.1
  have hds := hb.2.2.2.2.2.2.1
  have hdr := hb.2.2.2.2.2.2.2.2
  have hsig := WF_sig b hb
  have hoff := WF_dataOffset b hb
  have hwf := WF_widthField b hb
  have hhf := WF_heightField b hb
  have hbpp := WF_bpp b hb
  have hcomp := WF_comp b hb
  simp only [Bitmap.fromBytes, hsig, hoff, hwf, hhf, hbpp, hcomp]
  rw [if_neg (show ¬ b.data.size < 1078 by omega),
    if_neg (show ¬ (16973 : Nat) ≠ 16973 by omega),
    if_neg (show ¬ (1078 : Nat) ≠ 1078 by omega),
    if_neg (show ¬ (b.width = 0 ∨ b.height = 0) by omega),
    if_neg (show ¬ (8 : Nat) ≠ 8 by omega),
    if_neg (show ¬ (0 : Nat) ≠ 0 by omega),
    if_neg (show ¬ ((Bitmap.make b.width b.height []).data.size <
        54 + (arrSlice b.data 54 b.data.size).size) by
      rw [make_data_size, size_arrSlice, ← hsz]
      omega)]
  congr 1
  have hmw := make_width b.width b.height []
  have hmh := make_height b.width b.height []
  have hms := make_size b.width b.height []
  have hmp := make_paletteSize b.width b.height []
  have hmd := make_data_size b.width b.height []
  generalize hg : Bitmap.make b.width b.height [] = mk
    at hmw hmh hms hmp hmd hdr ⊢
  apply Bitmap.eq_of_fields
  · exact hmw
  · exact hmh
  · exact hms.trans hsz.symm
  · exact hmp.trans hps.symm
  · apply Array.ext
    · rw [size_arrSet, hmd, ← hsz, hds]
    · intro i hi1 hi2
      rw [← getB_eq_getElem _ _ hi1, ← getB_eq_getElem _ _ hi2]
      have hi3 : i < mk.data.size := by
        rw [size_arrSet] at hi1
        exact hi1
      rw [getB_arrSet _ _ _ _ hi3, size_arrSlice]
      split_ifs with hcase
      · rw [getB_arrSlice _ _ _ _ (by omega)]
        congr 1
        omega
      · have hi54 : i < 54 := by omega
        exact (hdr i hi54).symm

/-! ### Bounds checks and the pixel accessors -/

lemma withinImage_iff (bm : Bitmap) (x y : Int) :
    bm.withinImage x y = true ↔
      x ≥ 0 ∧ x < (bm.width : Int) ∧ y ≥ 0 ∧ y < (bm.height : Int) := by
  unfold Bitmap.withinImage
  simp [Bool.and_eq_true, decide_eq_true_eq, and_assoc]

lemma withinPalette_iff (bm : Bitmap) (c : Int) :
    bm.withinPalette c = true ↔ c ≥ 0 ∧ c < (bm.paletteSize : Int) := by
  unfold Bitmap.withinPalette
  simp [Bool.and_eq_true, decide_eq_true_eq]

lemma setPixel_out (bm : Bitmap) (x y c : Int)
    (h : ¬(x ≥ 0 ∧ x < (bm.width : Int) ∧ y ≥ 0 ∧ y < (bm.height : Int))) :
    bm.setPixel x y c = (bm, false) := by
  have hw : bm.withinImage x y = false := by
    rw [Bool.eq_false_iff]
    intro hc
    exact h ((withinImage_iff bm x y).mp hc)
  unfold Bitmap.setPixel
  rw [hw]
  simp

lemma setPixel_badColor (bm : Bitmap) (x y c : Int)
    (h : ¬(c ≥ 0 ∧ c < (bm.paletteSize : Int))) :
    bm.setPixel x y c = (bm, false) := by
  have hp : bm.withinPalette c = false := by
    rw [Bool.eq_false_iff]
    intro hc
    exact h ((withinPalette_iff bm c).mp hc)
  unfold Bitmap.setPixel
  rw [hp]
  simp

lemma pixOffset_eq (bm : Bitmap) (x y : Int)
    (hx0 : 0 ≤ x) (hy0 : 0 ≤ y) (hy1 : y < (bm.height : Int)) :
    (1078 + (bm.width : Int) * (((bm.height : Int) - 1) - y) + x).toNat =
      pixOffset bm x y := by
  unfold pixOffset
  have hiy : ((bm.height : Int) - 1) - y =
      ((bm.height - 1 - y.toNat : Nat) : Int) := by omega
  rw [hiy]
  have hmul : (bm.width : Int) * ((bm.height - 1 - y.toNat : Nat) : Int) =
      ((bm.width * (bm.height - 1 - y.toNat) : Nat) : Int) := by
    push_cast
    ring
  rw [hmul]
  omega

lemma setPixel_in (bm : Bitmap) (x y c : Int)
    (hx0 : 0 ≤ x) (hx1 : x < (bm.width : Int))
    (hy0 : 0 ≤ y) (hy1 : y < (bm.height : Int))
    (hc0 : 0 ≤ c) (hc1 : c < (bm.paletteSize : Int)) :
    bm.setPixel x y c =
      ({ bm with data := bm.data.setD (pixOffset bm x y) (c.toNat % 256) },
        true) := by
  have hw : bm.withinImage x y = true :=
    (withinImage_iff bm x y).mpr ⟨hx0, hx1, hy0, hy1⟩
  have hp : bm.withinPalette c = true :=
    (withinPalette_iff bm c).mpr ⟨hc0, hc1⟩
  simp only [Bitmap.setPixel, hw, hp, Bool.and_self, Bool.not_true,
    Bool.false_eq_true, if_false]
  rw [pixOffset_eq bm x y hx0 hy0 hy1]

lemma getPixel_out (bm : Bitmap) (x y : Int)
    (h : ¬(x ≥ 0 ∧ x < (bm.width : Int) ∧ y ≥ 0 ∧ y < (bm.height : Int))) :
    bm.getPixel x y = -1 := by
  have hw : bm.withinImage x y = false := by
    rw [Bool.eq_false_iff]
    intro hc
    exact h ((withinImage_iff bm x y).mp hc)
  unfold Bitmap.getPixel
  rw [hw]
  simp

lemma getPixel_in (bm : Bitmap) (x y : Int)
    (hx0 : 0 ≤ x) (hx1 : x < (bm.width : Int))
    (hy0 : 0 ≤ y) (hy1 : y < (bm.height : Int)) :
    bm.getPixel x y = (getB bm.data (pixOffset bm x y) : Int) := by
  have hw : bm.withinImage x y = true :=
    (withinImage_iff bm x y).mpr ⟨hx0, hx1, hy0, hy1⟩
  simp only [Bitmap.getPixel, hw, Bool.not_true, Bool.false_eq_true, if_false]
  rw [pixOffset_eq bm x y hx0 hy0 hy1]

lemma pixOffset_ge (bm : Bitmap) (x y : Int) : 1078 ≤ pixOffset bm x y := by
  unfold pixOffset
  omega

lemma pixOffset_lt (bm : Bitmap) (x y : Int)
    (hx0 : 0 ≤ x) (hx1 : x < (bm.width : Int))
    (hy0 : 0 ≤ y) (hy1 : y < (bm.height : Int)) :
    pixOffset bm x y < 1078 + bm.width * bm.height := by
  unfold pixOffset
  have hxw : x.toNat < bm.width := by omega
  have hyh : y.toNat < bm.height := by omega
  obtain ⟨k, hk⟩ : ∃ k, bm.height = k + 1 := ⟨bm.height - 1, by omega⟩
  rw [hk]
  simp only [Nat.add_sub_cancel]
  have h1 : bm.width * (k - y.toNat) ≤ bm.width * k :=
    Nat.mul_le_mul_left _ (by omega)
  have h2 : bm.width * (k + 1) = bm.width * k + bm.width := Nat.mul_succ _ _
  omega

lemma pixOffset_inj (bm : Bitmap) (x y u v : Int)
    (hx0 : 0 ≤ x) (hx1 : x < (bm.width : Int))
    (hy0 : 0 ≤ y) (hy1 : y < (bm.height : Int))
    (hu0 : 0 ≤ u) (hu1 : u < (bm.width : Int))
    (hv0 : 0 ≤ v) (hv1 : v < (bm.height : Int))
    (heq : pixOffset bm x y = pixOffset bm u v) : x = u ∧ y = v := by
  unfold pixOffset at heq
  have hw0 : 0 < bm.width := by omega
  have hxw : x.toNat < bm.width := by omega
  have huw : u.toNat < bm.width := by omega
  have heq2 : bm.width * (bm.height - 1 - y.toNat) + x.toNat
      = bm.width * (bm.height - 1 - v.toNat) + u.toNat := by omega
  have e1 : (bm.width * (bm.height - 1 - y.toNat) + x.toNat) % bm.width
      = x.toNat := by
    rw [Nat.mul_add_mod]
    exact Nat.mod_eq_of_lt hxw
  have e2 : (bm.width * (bm.height - 1 - v.toNat) + u.toNat) % bm.width
      = u.toNat := by
    rw [Nat.mul_add_mod]
    exact Nat.mod_eq_of_lt huw
  have d1 : (bm.width * (bm.height - 1 - y.toNat) + x.toNat) / bm.width
      = bm.height - 1 - y.toNat := by
    rw [Nat.mul_add_div hw0, Nat.div_eq_of_lt hxw]
    omega
  have d2 : (bm.width * (bm.height - 1 - v.toNat) + u.toNat) / bm.width
      = bm.height - 1 - v.toNat := by
    rw [Nat.mul_add_div hw0, Nat.div_eq_of_lt huw]
    omega
  rw [heq2] at e1 d1
  rw [e2] at e1
  rw [d2] at d1
  omega

lemma setPixel_fst_width (bm : Bitmap) (x y c : Int) :
    (bm.setPixel x y c).1.width = bm.width := by
  unfold Bitmap.setPixel
  split <;> rfl

lemma setPixel_fst_height (bm : Bitmap) (x y c : Int) :
    (bm.setPixel x y c).1.height = bm.height := by
  unfold Bitmap.setPixel
  split <;> rfl

lemma setPixel_fst_size (bm : Bitmap) (x y c : Int) :
    (bm.setPixel x y c).1.size = bm.size := by
  unfold Bitmap.setPixel
  split <;> rfl

lemma setPixel_fst_paletteSize (bm : Bitmap) (x y c : Int) :
    (bm.setPixel x y c).1.paletteSize = bm.paletteSize := by
  unfold Bitmap.setPixel
  split <;> rfl

lemma setPixel_fst_dataSize (bm : Bitmap) (x y c : Int) :
    (bm.setPixel x y c).1.data.size = bm.data.size := by
  unfold Bitmap.setPixel
  split
  · rfl
  · exact size_setD _ _ _

/-- Reading back after an in-bounds write with a valid palette index:
the written pixel holds the new index, every other position is
untouched. -/
lemma getPixel_setPixel (bm : Bitmap) (hb : WF bm) (x y c : Int)
    (hx0 : 0 ≤ x) (hx1 : x < (bm.width : Int))
    (hy0 : 0 ≤ y) (hy1 : y < (bm.height : Int))
    (hc0 : 0 ≤ c) (hc1 : c < 256) (u v : Int) :
    (bm.setPixel x y c).1.getPixel u v =
      if u = x ∧ v = y then c else bm.getPixel u v := by
  have hsz := hb.2.2.2.2.1
  have hps := hb.2.2.2.2.2.1
  have hds := hb.2.2.2.2.2.2.1
  have hcp : c < (bm.paletteSize : Int) := by
    rw [hps]
    omega
  rw [setPixel_in bm x y c hx0 hx1 hy0 hy1 hc0 hcp]
  show Bitmap.getPixel
    { bm with data := bm.data.setD (pixOffset bm x y) (c.toNat % 256) } u v = _
  by_cases huv : u = x ∧ v = y
  · obtain ⟨rfl, rfl⟩ := huv
    rw [if_pos ⟨rfl, rfl⟩]
    rw [getPixel_in
      { bm with data := bm.data.setD (pixOffset bm u v) (c.toNat % 256) }
      u v hx0 hx1 hy0 hy1]
    show (getB (bm.data.setD (pixOffset bm u v) (c.toNat % 256))
      (pixOffset bm u v) : Int) = c
    rw [getB_setD]
    have hlt : pixOffset bm u v < bm.data.size := by
      have := pixOffset_lt bm u v hx0 hx1 hy0 hy1
      omega
    rw [if_pos ⟨rfl, hlt⟩]
    omega
  · rw [if_neg huv]
    by_cases hin : u ≥ 0 ∧ u < (bm.width : Int) ∧ v ≥ 0 ∧ v < (bm.height : Int)
    · obtain ⟨hu0, hu1, hv0, hv1⟩ := hin
      rw [getPixel_in
        { bm with data := bm.data.setD (pixOffset bm x y) (c.toNat % 256) }
        u v hu0 hu1 hv0 hv1,
        getPixel_in bm u v hu0 hu1 hv0 hv1]
      show (getB (bm.data.setD (pixOffset bm x y) (c.toNat % 256))
        (pixOffset bm u v) : Int) = (getB bm.data (pixOffset bm u v) : Int)
      have hne : ¬(pixOffset bm x y = pixOffset bm u v ∧
          pixOffset bm x y < bm.data.size) := by
        rintro ⟨heq, _⟩
        obtain ⟨hxu, hyv⟩ := pixOffset_inj bm x y u v hx0 hx1 hy0 hy1
          hu0 hu1 hv0 hv1 heq
        exact huv ⟨hxu.symm, hyv.symm⟩
      rw [getB_setD, if_neg hne]
    · rw [getPixel_out
        { bm with data := bm.data.setD (pixOffset bm x y) (c.toNat % 256) }
        u v hin, getPixel_out bm u v hin]

/-- setPixel preserves well-formedness. -/
lemma setPixel_WF (bm : Bitmap) (hb : WF bm) (x y c : Int) :
    WF (bm.setPixel x y c).1 := by
  by_cases hB : x ≥ 0 ∧ x < (bm.width : Int) ∧ y ≥ 0 ∧ y < (bm.height : Int)
  · by_cases hC : c ≥ 0 ∧ c < (bm.paletteSize : Int)
    · obtain ⟨hx0, hx1, hy0, hy1⟩ := hB
      obtain ⟨hc0, hc1⟩ := hC
      rw [setPixel_in bm x y c hx0 hx1 hy0 hy1 hc0 hc1]
      obtain ⟨h1, h2, h3, h4, h5, h6, h7, h8, h9⟩ := hb
      refine ⟨h1, h2, h3, h4, h5, h6, ?_, ?_, ?_⟩
      · show (bm.data.setD (pixOffset bm x y) (c.toNat % 256)).size
          = 1078 + bm.size
        rw [size_setD]
        exact h7
      · intro i
        show getB (bm.data.setD (pixOffset bm x y) (c.toNat % 256)) i < 256
        rw [getB_setD]
        split_ifs
        · omega
        · exact h8 i
      · intro i hi
        show getB (bm.data.setD (pixOffset bm x y) (c.toNat % 256)) i
          = getB (Bitmap.make bm.width bm.height []).data i
        have hge := pixOffset_ge bm x y
        rw [getB_setD]
        split_ifs with hcase
        · omega
        · exact h9 i hi
    · rw [setPixel_badColor bm x y c hC]
      exact hb
  · rw [setPixel_out bm x y c hB]
    exact hb

/-! ### The shader chain -/

/-- The rolling shader chain written as a direct recursion: the head
shader receives the current pair, its `next` input becomes the new
`previous`, and its output becomes the new `next`. -/
def rollChain : List PixelShaderFn → Pixel → Pixel → Pixel
  | [], _, next => next
  | shader :: rest, previous, next => rollChain rest next (shader previous next)

lemma shaderFold_snd (shaders : List PixelShaderFn) :
    ∀ p n, (shaderFold shaders p n).2 = rollChain shaders p n := by
  induction shaders with
  | nil => intro p n; rfl
  | cons s rest ih =>
    intro p n
    show (shaderFold rest n (s p n)).2 = rollChain rest n (s p n)
    exact ih n (s p n)

/-- Modelled from the words of the claim under test: each shader output
becomes both the `previous` and the `next` input of the following
shader (the claim asserts the previous fed to shader k is the output of
shader k-1 while the next is also that output). -/
def claimedChain : List PixelShaderFn → Pixel → Pixel → Pixel
  | [], _, next => next
  | shader :: rest, previous, next =>
    claimedChain rest (shader previous next) (shader previous next)

lemma surface_pixel_nil (bm : Bitmap) (x y c : Int) :
    Surface.pixel bm x y c [] = (bm.setPixel x y c).1 := rfl

/-! ### Claim theorems -/

/-- C1: Round-trip: for every well-formed Bitmap (any width and height
of at least 1 pixel in the unsigned 32-bit range of the header fields,
any palette of at most 256 colors applied by the constructor, any pixel
contents), Bitmap.from of its backing buffer succeeds and yields a
bitmap with the same width, the same height, a byte-for-byte identical
256-entry palette (bytes 54 to 1077), and the same pixel grid. -/
theorem C1_decode_encode_roundtrip (b : Bitmap) (hb : WF b) :
    Bitmap.fromBytes b.data = Except.ok b ∧
    ∀ b2, Bitmap.fromBytes b.data = Except.ok b2 →
      b2.width = b.width ∧ b2.height = b.height ∧
      (∀ i, 54 ≤ i → i < 1078 → getB b2.data i = getB b.data i) ∧
      (∀ x y : Int, b2.getPixel x y = b.getPixel x y) := by
  have hr := fromBytes_roundtrip b hb
  refine ⟨hr, ?_⟩
  intro b2 h2
  rw [hr] at h2
  obtain rfl : b = b2 := Except.ok.inj h2
  exact ⟨rfl, rfl, fun _ _ _ => rfl, fun _ _ => rfl⟩

/-- Witness for C1: a 2 by 2 bitmap with a two-color palette and a
pixel written at the origin decodes from its own buffer to itself. -/
theorem C1_decode_encode_roundtrip_witness :
    Bitmap.fromBytes
        ((Bitmap.make 2 2 [⟨255, 0, 0, 255⟩, ⟨0, 255, 0, 255⟩]).setPixel
          0 0 1).1.data =
      Except.ok
        ((Bitmap.make 2 2 [⟨255, 0, 0, 255⟩, ⟨0, 255, 0, 255⟩]).setPixel
          0 0 1).1 :=
  (C1_decode_encode_roundtrip _
    (setPixel_WF _
      (make_WF 2 2 _ (by omega) (by omega) (by omega) (by omega)) 0 0 1)).1

/-- C3: out-of-bounds pixel access is a pure no-op: for every Bitmap
and all integers x, y outside the image, and every colorIndex c,
getPixel returns -1 and setPixel returns false leaving the bitmap (and
hence its backing buffer) completely unchanged. -/
theorem C3_out_of_bounds_noop (bm : Bitmap) (x y c : Int)
    (h : x < 0 ∨ x ≥ (bm.width : Int) ∨ y < 0 ∨ y ≥ (bm.height : Int)) :
    bm.getPixel x y = -1 ∧ bm.setPixel x y c = (bm, false) := by
  have hn : ¬(x ≥ 0 ∧ x < (bm.width : Int) ∧ y ≥ 0 ∧
      y < (bm.height : Int)) := by omega
  exact ⟨getPixel_out bm x y hn, setPixel_out bm x y c hn⟩

/-- Witness for C3 at a 2 by 2 bitmap and position (-1, 0). -/
theorem C3_out_of_bounds_noop_witness :
    (Bitmap.make 2 2 []).getPixel (-1) 0 = -1 ∧
      (Bitmap.make 2 2 []).setPixel (-1) 0 0 = (Bitmap.make 2 2 [], false) :=
  C3_out_of_bounds_noop (Bitmap.make 2 2 []) (-1) 0 0 (Or.inl (by omega))

/-- C6: row inversion: for every well-formed Bitmap, in-bounds integer
position (x, y) and valid palette index c, setPixel writes the byte at
offset 1078 + width*(height-1-y) + x of the backing buffer and returns
true; instantiating y := 0 places the write in the last stored pixel
row at offset 1078 + width*(height-1) + x, and y := height-1 places it
in the first stored row at offset 1078 + x. -/
theorem C6_row_inversion (bm : Bitmap) (hb : WF bm) (x y c : Int)
    (hx0 : 0 ≤ x) (hx1 : x < (bm.width : Int))
    (hy0 : 0 ≤ y) (hy1 : y < (bm.height : Int))
    (hc0 : 0 ≤ c) (hc1 : c < 256) :
    bm.setPixel x y c =
      ({ bm with data := bm.data.setD (1078 + bm.width * (bm.height - 1 - y.toNat) + x.toNat) c.toNat },
        true) := by
  have hps := hb.2.2.2.2.2.1
  rw [setPixel_in bm x y c hx0 hx1 hy0 hy1 hc0 (by rw [hps]; omega)]
  have hmod : c.toNat % 256 = c.toNat := by omega
  rw [hmod]
  rfl

/-- Witness for C6 at a 2 by 2 bitmap, position (0, 0), index 5. -/
theorem C6_row_inversion_witness :
    (Bitmap.make 2 2 []).setPixel 0 0 5 =
      ({ Bitmap.make 2 2 [] with data := (Bitmap.make 2 2 []).data.setD (1078 + (Bitmap.make 2 2 []).width * ((Bitmap.make 2 2 []).height - 1 - (0 : Int).toNat) + (0 : Int).toNat) (5 : Int).toNat },
        true) :=
  C6_row_inversion (Bitmap.make 2 2 [])
    (make_WF 2 2 [] (by omega) (by omega) (by omega) (by omega)) 0 0 5
    (by omega) (by rw [make_width]; omega)
    (by omega) (by rw [make_height]; omega) (by omega) (by omega)

/-- C7: mask cancellation: for every bitmap, position and mask index m,
drawing through Surface.pixel with colorIndex m and the single shader
MaskShader m leaves the bitmap (hence its buffer) completely unchanged:
the shader rewrites the candidate to -1 and the commit-level setPixel
rejects -1 as out of palette. -/
theorem C7_mask_cancellation (bm : Bitmap) (x y m : Int) :
    Surface.pixel bm x y m [MaskShader m] = bm := by
  have hstep : (shaderFold [MaskShader m] ⟨x, y, bm.getPixel x y⟩
      ⟨x, y, m⟩).2 = (⟨x, y, -1⟩ : Pixel) := by
    show MaskShader m ⟨x, y, bm.getPixel x y⟩ ⟨x, y, m⟩ = (⟨x, y, -1⟩ : Pixel)
    unfold MaskShader
    split_ifs with hcond
    · rfl
    · exact absurd rfl hcond
  simp only [Surface.pixel, hstep]
  show (bm.setPixel x y (-1)).1 = bm
  rw [setPixel_badColor bm x y (-1) (by omega)]

/-- C9: single-byte frame effect of setPixel: for every well-formed
Bitmap, in-bounds integers x, y and colorIndex with 0 <= colorIndex <
256, setPixel returns true, keeps the buffer length, stores the index
at offset 1078 + width*(height-1-y) + x, and leaves every other byte of
the backing buffer (the 54 header bytes, the 1024 palette bytes and all
other pixel bytes) at its previous value. -/
theorem C9_single_byte_frame (bm : Bitmap) (hb : WF bm) (x y c : Int)
    (hx0 : 0 ≤ x) (hx1 : x < (bm.width : Int))
    (hy0 : 0 ≤ y) (hy1 : y < (bm.height : Int))
    (hc0 : 0 ≤ c) (hc1 : c < 256) :
    (bm.setPixel x y c).2 = true ∧
    (bm.setPixel x y c).1.data.size = bm.data.size ∧
    getB (bm.setPixel x y c).1.data
      (1078 + bm.width * (bm.height - 1 - y.toNat) + x.toNat) = c.toNat ∧
    ∀ i, i ≠ 1078 + bm.width * (bm.height - 1 - y.toNat) + x.toNat →
      getB (bm.setPixel x y c).1.data i = getB bm.data i := by
  have hps := hb.2.2.2.2.2.1
  have hsz := hb.2.2.2.2.1
  have hds := hb.2.2.2.2.2.2.1
  have hoff_lt : pixOffset bm x y < bm.data.size := by
    have := pixOffset_lt bm x y hx0 hx1 hy0 hy1
    omega
  rw [setPixel_in bm x y c hx0 hx1 hy0 hy1 hc0 (by rw [hps]; omega)]
  refine ⟨rfl, ?_, ?_, ?_⟩
  · show (bm.data.setD (pixOffset bm x y) (c.toNat % 256)).size
      = bm.data.size
    exact size_setD _ _ _
  · show getB (bm.data.setD (pixOffset bm x y) (c.toNat % 256))
      (1078 + bm.width * (bm.height - 1 - y.toNat) + x.toNat) = c.toNat
    rw [show (1078 + bm.width * (bm.height - 1 - y.toNat) + x.toNat)
      = pixOffset bm x y from rfl]
    rw [getB_setD, if_pos ⟨rfl, hoff_lt⟩]
    omega
  · intro i hi
    show getB (bm.data.setD (pixOffset bm x y) (c.toNat % 256)) i
      = getB bm.data i
    rw [getB_setD]
    split_ifs with hcc
    · exact absurd hcc.1.symm hi
    · rfl

/-- Witness for C9 at a 2 by 2 bitmap, position (1, 0), index 7. -/
theorem C9_single_byte_frame_witness :
    ((Bitmap.make 2 2 []).setPixel 1 0 7).2 = true ∧
    ((Bitmap.make 2 2 []).setPixel 1 0 7).1.data.size
      = (Bitmap.make 2 2 []).data.size ∧
    getB ((Bitmap.make 2 2 []).setPixel 1 0 7).1.data
      (1078 + (Bitmap.make 2 2 []).width *
        ((Bitmap.make 2 2 []).height - 1 - (0 : Int).toNat) +
        (1 : Int).toNat) = (7 : Int).toNat ∧
    ∀ i, i ≠ 1078 + (Bitmap.make 2 2 []).width *
        ((Bitmap.make 2 2 []).height - 1 - (0 : Int).toNat) +
        (1 : Int).toNat →
      getB ((Bitmap.make 2 2 []).setPixel 1 0 7).1.data i
        = getB (Bitmap.make 2 2 []).data i :=
  C9_single_byte_frame (Bitmap.make 2 2 [])
    (make_WF 2 2 [] (by omega) (by omega) (by omega) (by omega)) 1 0 7
    (by omega) (by rw [make_width]; omega)
    (by omega) (by rw [make_height]; omega) (by omega) (by omega)

/-- C10: the sentinel -1 uniquely identifies out-of-bounds reads: on a
well-formed Bitmap, getPixel returns a value in 0..255 at every
in-bounds position (the backing store holds bytes), returns -1 outside,
hence getPixel x y = -1 exactly when (x, y) is outside the image. -/
theorem C10_sentinel_iff (bm : Bitmap) (hb : WF bm) (x y : Int) :
    ((x ≥ 0 ∧ x < (bm.width : Int) ∧ y ≥ 0 ∧ y < (bm.height : Int)) →
      0 ≤ bm.getPixel x y ∧ bm.getPixel x y ≤ 255) ∧
    (bm.getPixel x y = -1 ↔
      (x < 0 ∨ x ≥ (bm.width : Int) ∨ y < 0 ∨ y ≥ (bm.height : Int))) := by
  have h8 := hb.2.2.2.2.2.2.2.1
  constructor
  · rintro ⟨hx0, hx1, hy0, hy1⟩
    rw [getPixel_in bm x y hx0 hx1 hy0 hy1]
    have := h8 (pixOffset bm x y)
    omega
  · constructor
    · intro heq
      by_cases hin : x ≥ 0 ∧ x < (bm.width : Int) ∧ y ≥ 0 ∧
          y < (bm.height : Int)
      · obtain ⟨hx0, hx1, hy0, hy1⟩ := hin
        rw [getPixel_in bm x y hx0 hx1 hy0 hy1] at heq
        omega
      · omega
    · intro hout
      exact getPixel_out bm x y (by omega)

/-- Witness for C10 at a 1 by 1 bitmap and position (-1, 0). -/
theorem C10_sentinel_iff_witness :
    (((-1 : Int) ≥ 0 ∧ (-1 : Int) < ((Bitmap.make 1 1 []).width : Int) ∧
        (0 : Int) ≥ 0 ∧ (0 : Int) < ((Bitmap.make 1 1 []).height : Int)) →
      0 ≤ (Bitmap.make 1 1 []).getPixel (-1) 0 ∧
        (Bitmap.make 1 1 []).getPixel (-1) 0 ≤ 255) ∧
    ((Bitmap.make 1 1 []).getPixel (-1) 0 = -1 ↔
      ((-1 : Int) < 0 ∨ (-1 : Int) ≥ ((Bitmap.make 1 1 []).width : Int) ∨
        (0 : Int) < 0 ∨ (0 : Int) ≥ ((Bitmap.make 1 1 []).height : Int))) :=
  C10_sentinel_iff (Bitmap.make 1 1 [])
    (make_WF 1 1 [] (by omega) (by omega) (by omega) (by omega)) (-1) 0

/-- C4 amended: shader chaining is rolling in the following exact
sense: shaders run in list order; the first shader receives the buffer
pixel as previous and the caller colorIndex as next; each shader output
becomes the next input of the following shader; the previous fed to
shader k (k >= 2) is the next input that was fed to shader k-1 (the
caller colorIndex for k = 2, the output of shader k-2 for k >= 3), not
the output of shader k-1; the output pixel of the last shader is
committed via setPixel.  The rollChain equations state precisely this rolling pair
update. -/
theorem C4_shader_chain_amended (bm : Bitmap) (x y c : Int)
    (shaders : List PixelShaderFn) :
    Surface.pixel bm x y c shaders =
      (bm.setPixel
        (rollChain shaders ⟨x, y, bm.getPixel x y⟩ ⟨x, y, c⟩).x
        (rollChain shaders ⟨x, y, bm.getPixel x y⟩ ⟨x, y, c⟩).y
        (rollChain shaders ⟨x, y, bm.getPixel x y⟩ ⟨x, y, c⟩).color).1 := by
  simp only [Surface.pixel, shaderFold_snd]

/-- The first shader of the counterexample to C4: it outputs the
constant pixel (0, 0, 7). -/
def constSevenShader : PixelShaderFn := fun _previous _next => ⟨0, 0, 7⟩

/-- The second shader of the counterexample to C4: it returns its
previous argument unchanged. -/
def previousShader : PixelShaderFn := fun previous _next => previous

set_option maxRecDepth 10000 in
/-- Counterexample to C4 as stated: on a fresh 1 by 1 bitmap holding 0,
drawing with colorIndex 3 through the two shaders above commits 3 (the
second shader receives the caller pixel of color 3 as previous), while
the chaining asserted by the claim (the previous fed to shader 2 is the
output of shader 1) predicts that the committed color is 7. -/
theorem C4_shader_chain_counterexample :
    (Surface.pixel (Bitmap.make 1 1 []) 0 0 3
      [constSevenShader, previousShader]).getPixel 0 0 = 3 ∧
    (claimedChain [constSevenShader, previousShader]
      ⟨0, 0, (Bitmap.make 1 1 []).getPixel 0 0⟩ ⟨0, 0, 3⟩).color = 7 ∧
    (3 : Int) ≠ 7 := by
  refine ⟨by decide, by decide, by omega⟩

/-- C5 amended: Surface.hline draws nothing when size is not positive:
the loop `for(index = 0; index < size; ...)` runs zero times, so
hline(5, 0, -3, 1) paints no pixels and returns the bitmap unchanged
(rather than normalizing the size to abs and shifting the origin). -/
theorem C5_hline_amended (bm : Bitmap) (x y size c : Int)
    (shaders : List PixelShaderFn) (h : size ≤ 0) :
    Surface.hline bm x y size c shaders = bm := by
  unfold Surface.hline
  rw [show size.toNat = 0 by omega]
  rfl

/-- Witness for the amended C5 at hline(5, 0, -3, 1) on a 2 by 2
bitmap. -/
theorem C5_hline_amended_witness :
    Surface.hline (Bitmap.make 2 2 []) 5 0 (-3) 1 [] = Bitmap.make 2 2 [] :=
  C5_hline_amended (Bitmap.make 2 2 []) 5 0 (-3) 1 [] (by omega)

set_option maxRecDepth 10000 in
/-- Counterexample to C5 as stated: on a fresh 8 by 1 bitmap,
hline(5, 0, -3, 1) leaves pixel (2, 0) at its previous value 0, not 1,
while the allegedly equal call hline(2, 0, 3, 1) does paint 1 there; so
the negative size is not normalized to abs with a shifted origin. -/
theorem C5_hline_counterexample :
    (Surface.hline (Bitmap.make 8 1 []) 5 0 (-3) 1 []).getPixel 2 0 = 0 ∧
    (Surface.hline (Bitmap.make 8 1 []) 2 0 3 1 []).getPixel 2 0 = 1 ∧
    (0 : Int) ≠ 1 := by
  refine ⟨by decide, by decide, by omega⟩

/-- C2 amended: Bitmap.from throws exactly when the file has fewer than
1078 bytes, or the big-endian 16-bit magic differs from 16973, or the
32-bit data-offset field differs from 1078, or the unsigned width or
height field is zero, or bits-per-pixel differs from 8, or compression
differs from 0, or the file is longer than 1078 + width*height bytes
(then the palette-and-pixel fragment does not fit the freshly allocated
buffer and Uint8Array.prototype.set raises a RangeError).  Moreover a
1078-byte buffer of bytes whose byte 0 is 0 raises the signature
error. -/
theorem C2_decode_error_conditions (file : Array Nat) :
    (isErr (Bitmap.fromBytes file) = true ↔
      (file.size < 1078 ∨ getU16BE file 0 ≠ 16973 ∨
        getU32LE file 10 ≠ 1078 ∨ getU32LE file 18 = 0 ∨
        getU32LE file 22 = 0 ∨ getU16LE file 28 ≠ 8 ∨
        getU16LE file 30 ≠ 0 ∨
        1078 + getU32LE file 18 * getU32LE file 22 < file.size)) ∧
    ((∀ i, getB file i < 256) → file.size = 1078 → getB file 0 = 0 →
      Bitmap.fromBytes file = Except.error BitmapError.badSignature) := by
  constructor
  · by_cases h1 : file.size < 1078
    · simp only [Bitmap.fromBytes, if_pos h1, isErr]
      exact ⟨fun _ => Or.inl h1, fun _ => trivial⟩
    · by_cases h2 : getU16BE file 0 ≠ 16973
      · simp only [Bitmap.fromBytes, if_neg h1, if_pos h2, isErr]
        exact ⟨fun _ => by tauto, fun _ => trivial⟩
      · by_cases h3 : getU32LE file 10 ≠ 1078
        · simp only [Bitmap.fromBytes, if_neg h1, if_neg h2, if_pos h3, isErr]
          exact ⟨fun _ => by tauto, fun _ => trivial⟩
        · by_cases h4 : getU32LE file 18 = 0 ∨ getU32LE file 22 = 0
          · simp only [Bitmap.fromBytes, if_neg h1, if_neg h2, if_neg h3,
              if_pos h4, isErr]
            exact ⟨fun _ => by tauto, fun _ => trivial⟩
          · by_cases h5 : getU16LE file 28 ≠ 8
            · simp only [Bitmap.fromBytes, if_neg h1, if_neg h2, if_neg h3,
                if_neg h4, if_pos h5, isErr]
              exact ⟨fun _ => by tauto, fun _ => trivial⟩
            · by_cases h6 : getU16LE file 30 ≠ 0
              · simp only [Bitmap.fromBytes, if_neg h1, if_neg h2, if_neg h3,
                  if_neg h4, if_neg h5, if_pos h6, isErr]
                exact ⟨fun _ => by tauto, fun _ => trivial⟩
              · simp only [Bitmap.fromBytes, if_neg h1, if_neg h2, if_neg h3,
                  if_neg h4, if_neg h5, if_neg h6]
                rw [make_data_size, size_arrSlice]
                by_cases h7 : 1078 + getU32LE file 18 * getU32LE file 22 <
                    54 + (file.size - 54)
                · rw [if_pos h7]
                  simp only [isErr]
                  exact ⟨fun _ => by omega, fun _ => trivial⟩
                · rw [if_neg h7]
                  simp only [isErr]
                  constructor
                  · intro hf
                    exact absurd hf (by simp)
                  · intro hd
                    exfalso
                    omega
  · intro hbytes hlen h0
    have hsig : getU16BE file 0 ≠ 16973 := by
      unfold getU16BE
      rw [h0]
      have := hbytes (0 + 1)
      omega
    simp only [Bitmap.fromBytes]
    rw [if_neg (show ¬ file.size < 1078 by omega), if_pos hsig]

/-- Counterexample to C2 as stated: appending one byte to the buffer of
a fresh 1 by 1 bitmap gives a 1080-byte file that satisfies every
validation listed by the claim (length at least 1078, magic 16973,
data offset 1078, width 1, height 1, 8 bpp, compression 0), yet
Bitmap.from throws: the 1026-byte fragment does not fit the 1025 bytes
left after offset 54 of the freshly allocated 1079-byte buffer, so
Uint8Array.prototype.set raises a RangeError. -/
theorem C2_decode_error_conditions_counterexample :
    ((Bitmap.make 1 1 []).data.push 0).size = 1080 ∧
    getU16BE ((Bitmap.make 1 1 []).data.push 0) 0 = 16973 ∧
    getU32LE ((Bitmap.make 1 1 []).data.push 0) 10 = 1078 ∧
    getU32LE ((Bitmap.make 1 1 []).data.push 0) 18 = 1 ∧
    getU32LE ((Bitmap.make 1 1 []).data.push 0) 22 = 1 ∧
    getU16LE ((Bitmap.make 1 1 []).data.push 0) 28 = 8 ∧
    getU16LE ((Bitmap.make 1 1 []).data.push 0) 30 = 0 ∧
    isErr (Bitmap.fromBytes ((Bitmap.make 1 1 []).data.push 0)) = true := by
  have hbWF := make_WF 1 1 [] (by omega) (by omega) (by omega) (by omega)
  have hds : (Bitmap.make 1 1 []).data.size = 1079 := by
    rw [make_data_size]
  have hfb : ∀ i, i < 1079 →
      getB ((Bitmap.make 1 1 []).data.push 0) i
        = getB (Bitmap.make 1 1 []).data i := by
    intro i hi
    rw [getB_push]
    rw [if_pos (show i < (Bitmap.make 1 1 []).data.size by rw [hds]; exact hi)]
  have hsize : ((Bitmap.make 1 1 []).data.push 0).size = 1080 := by
    rw [Array.size_push, hds]
  have hsig : getU16BE ((Bitmap.make 1 1 []).data.push 0) 0 = 16973 := by
    rw [getU16BE_congr ((Bitmap.make 1 1 []).data.push 0)
      (Bitmap.make 1 1 []).data 0 (hfb 0 (by omega)) (hfb 1 (by omega))]
    exact WF_sig _ hbWF
  have hoff : getU32LE ((Bitmap.make 1 1 []).data.push 0) 10 = 1078 := by
    rw [getU32LE_congr ((Bitmap.make 1 1 []).data.push 0)
      (Bitmap.make 1 1 []).data 10 (hfb 10 (by omega)) (hfb 11 (by omega))
      (hfb 12 (by omega)) (hfb 13 (by omega))]
    exact WF_dataOffset _ hbWF
  have hwfield : getU32LE ((Bitmap.make 1 1 []).data.push 0) 18 = 1 := by
    rw [getU32LE_congr ((Bitmap.make 1 1 []).data.push 0)
      (Bitmap.make 1 1 []).data 18 (hfb 18 (by omega)) (hfb 19 (by omega))
      (hfb 20 (by omega)) (hfb 21 (by omega))]
    rw [WF_widthField _ hbWF, make_width]
  have hhfield : getU32LE ((Bitmap.make 1 1 []).data.push 0) 22 = 1 := by
    rw [getU32LE_congr ((Bitmap.make 1 1 []).data.push 0)
      (Bitmap.make 1 1 []).data 22 (hfb 22 (by omega)) (hfb 23 (by omega))
      (hfb 24 (by omega)) (hfb 25 (by omega))]
    rw [WF_heightField _ hbWF, make_height]
  have hbpp : getU16LE ((Bitmap.make 1 1 []).data.push 0) 28 = 8 := by
    rw [getU16LE_congr ((Bitmap.make 1 1 []).data.push 0)
      (Bitmap.make 1 1 []).data 28 (hfb 28 (by omega)) (hfb 29 (by omega))]
    exact WF_bpp _ hbWF
  have hcomp : getU16LE ((Bitmap.make 1 1 []).data.push 0) 30 = 0 := by
    rw [getU16LE_congr ((Bitmap.make 1 1 []).data.push 0)
      (Bitmap.make 1 1 []).data 30 (hfb 30 (by omega)) (hfb 31 (by omega))]
    exact WF_comp _ hbWF
  refine ⟨hsize, hsig, hoff, hwfield, hhfield, hbpp, hcomp, ?_⟩
  simp only [Bitmap.fromBytes, hsize, hsig, hoff, hwfield, hhfield, hbpp,
    hcomp]
  rw [if_neg (show ¬ (1080 : Nat) < 1078 by omega),
    if_neg (show ¬ (16973 : Nat) ≠ 16973 by omega),
    if_neg (show ¬ (1078 : Nat) ≠ 1078 by omega),
    if_neg (show ¬ ((1 : Nat) = 0 ∨ (1 : Nat) = 0) by omega),
    if_neg (show ¬ (8 : Nat) ≠ 8 by omega),
    if_neg (show ¬ (0 : Nat) ≠ 0 by omega)]
  rw [make_data_size, size_arrSlice]
  rw [if_pos (show (1078 + 1 * 1 : Nat) < 54 + (1080 - 54) by omega)]
  rfl

/-- Witness for the amended C2: the all-zero 1078-byte buffer raises
the signature error. -/
theorem C2_decode_error_conditions_witness :
    Bitmap.fromBytes (Array.mkArray 1078 0)
      = Except.error BitmapError.badSignature :=
  (C2_decode_error_conditions (Array.mkArray 1078 0)).2
    (fun i => by rw [getB_mkArray_zero]; omega)
    (size_mkArrayN 1078 0) (getB_mkArray_zero 1078 0)

/-- C8: mirrored blit placement: blitting a 2 by 1 source holding valid
palette indices A at (0,0) and B at (1,0) onto a well-formed
destination at least 2 pixels wide, at position (0,0) with scaleX = -1
and scaleY = 1, writes A to destination (1,0) and B to destination
(0,0), and writes no other destination pixel. -/
theorem C8_mirrored_blit (bm : Bitmap) (hb : WF bm)
    (hw2 : 2 ≤ bm.width) (src : SrcImage) (A B : Int)
    (hsw : src.width = 2) (hsh : src.height = 1)
    (hA : src.getPixel 0 0 = A) (hB : src.getPixel 1 0 = B)
    (hA0 : 0 ≤ A) (hA1 : A < 256) (hB0 : 0 ≤ B) (hB1 : B < 256) :
    (Surface.blit bm src 0 0 (-1) 1 0 []).getPixel 1 0 = A ∧
    (Surface.blit bm src 0 0 (-1) 1 0 []).getPixel 0 0 = B ∧
    ∀ u v : Int, ¬(u = 1 ∧ v = 0) → ¬(u = 0 ∧ v = 0) →
      (Surface.blit bm src 0 0 (-1) 1 0 []).getPixel u v
        = bm.getPixel u v := by
  have hh1 : 1 ≤ bm.height := hb.2.2.1
  have hred : Surface.blit bm src 0 0 (-1) 1 0 [] =
      Surface.pixel (Surface.pixel bm 1 0 (src.getPixel 0 0) []) 0 0
        (src.getPixel 1 0) [] := by
    unfold Surface.blit
    rw [hsw, hsh]
    rfl
  rw [hA, hB] at hred
  have hred2 : Surface.blit bm src 0 0 (-1) 1 0 []
      = ((bm.setPixel 1 0 A).1.setPixel 0 0 B).1 := by
    rw [hred, surface_pixel_nil, surface_pixel_nil]
  have hWF1 := setPixel_WF bm hb 1 0 A
  have h1 : ∀ u v : Int, (bm.setPixel 1 0 A).1.getPixel u v =
      if u = 1 ∧ v = 0 then A else bm.getPixel u v := fun u v =>
    getPixel_setPixel bm hb 1 0 A (by omega) (by omega) (by omega)
      (by omega) hA0 hA1 u v
  have h2 : ∀ u v : Int, ((bm.setPixel 1 0 A).1.setPixel 0 0 B).1.getPixel u v =
      if u = 0 ∧ v = 0 then B else (bm.setPixel 1 0 A).1.getPixel u v :=
    fun u v =>
    getPixel_setPixel (bm.setPixel 1 0 A).1 hWF1 0 0 B (by omega)
      (by rw [setPixel_fst_width]; omega) (by omega)
      (by rw [setPixel_fst_height]; omega) hB0 hB1 u v
  refine ⟨?_, ?_, ?_⟩
  · rw [hred2, h2 1 0, if_neg (by omega), h1 1 0, if_pos ⟨rfl, rfl⟩]
  · rw [hred2, h2 0 0, if_pos ⟨rfl, rfl⟩]
  · intro u v hn1 hn2
    rw [hred2, h2 u v, if_neg hn2, h1 u v, if_neg hn1]

/-- Witness for C8: a concrete 2 by 1 destination and a 2 by 1 source
with pixels 5 and 9. -/
theorem C8_mirrored_blit_witness :
    (Surface.blit (Bitmap.make 2 1 [])
      ⟨2, 1, fun u v => if u = 0 ∧ v = 0 then 5 else 9⟩
      0 0 (-1) 1 0 []).getPixel 1 0 = 5 ∧
    (Surface.blit (Bitmap.make 2 1 [])
      ⟨2, 1, fun u v => if u = 0 ∧ v = 0 then 5 else 9⟩
      0 0 (-1) 1 0 []).getPixel 0 0 = 9 :=
  ⟨(C8_mirrored_blit (Bitmap.make 2 1 [])
      (make_WF 2 1 [] (by omega) (by omega) (by omega) (by omega))
      (by rw [make_width]) _ 5 9 rfl rfl (by decide) (by decide)
      (by omega) (by omega) (by omega) (by omega)).1,
    (C8_mirrored_blit (Bitmap.make 2 1 [])
      (make_WF 2 1 [] (by omega) (by omega) (by omega) (by omega))
      (by rw [make_width]) _ 5 9 rfl rfl (by decide) (by decide)
      (by omega) (by omega) (by omega) (by omega)).2.1⟩
